import Mathlib

/-
Shallow embedding of the vue-request query core:
  src/core/useAsyncQuery.ts  (Query Registry)
  src/useLoadMore.ts         (List-Accumulation Layer)
The per-unit state machine (createQuery), the cache-store utilities
(getCache/setCache) and the path lookup (get) are referenced by those files
but their sources are not provided; they are modelled from the spec where
noted.  Asynchronous execution is modelled by splitting a run into a
synchronous start (Registry.run) and an explicit resolution event
(settleSuccess / settleError); Vue watcher batching is modelled by an
explicit flush step (Registry.flush), applied at operation boundaries in
the accumulation layer (LoadMoreState.sync), where awaits let the
scheduler flush.
-/

set_option maxRecDepth 4000

namespace VR

/-- JavaScript-like runtime values: results, errors and run parameters are
dynamically typed in the source, so they are embedded as a small universe
of JS values.  `undefined` stands for JavaScript `undefined` (an unset field). -/
inductive JVal where
  | undefined : JVal
  | bool (b : Bool) : JVal
  | num (n : Int) : JVal
  | str (s : String) : JVal
  | arr (xs : List JVal) : JVal
  | obj (fields : List (String × JVal)) : JVal

/-- Discriminator for JavaScript `undefined`. -/
def JVal.isUndefined : JVal → Bool
  | .undefined => true
  | _ => false

/-- Lookup in an insertion-ordered association list (a JS object's own
properties keep insertion order for non-index keys). -/
def assocGet (m : List (String × α)) (k : String) : Option α :=
  match m with
  | [] => none
  | (k', v) :: rest => if k' = k then some v else assocGet rest k

/-- Property write on a JS object: an existing key keeps its position, a
new key is appended. -/
def assocSet (m : List (String × α)) (k : String) (v : α) : List (String × α) :=
  match m with
  | [] => [(k, v)]
  | (k', v') :: rest =>
    if k' = k then (k, v) :: rest else (k', v') :: assocSet rest k v

/-- Digit-string accumulator used to recognise canonical array-index keys. -/
def digitsToNat : List Char → Nat → Option Nat
  | [], acc => some acc
  | c :: cs, acc =>
    if '0' ≤ c ∧ c ≤ '9' then digitsToNat cs (acc * 10 + (c.toNat - '0'.toNat))
    else none

/-- A JS property key counts as an array index when it is the canonical
decimal string of a natural number ("0", "1", ... but not "00"). -/
def asArrayIndex (s : String) : Option Nat :=
  match s.toList with
  | [] => none
  | cs =>
    match digitsToNat cs 0 with
    | some n => if toString n = s then some n else none
    | none => none

/-- Ordered insert for the array-index portion of JS property enumeration. -/
def insertAsc (n : Nat × String) : List (Nat × String) → List (Nat × String)
  | [] => [n]
  | m :: rest => if n.1 ≤ m.1 then n :: m :: rest else m :: insertAsc n rest

/-- Insertion sort for the array-index portion of JS property enumeration. -/
def sortAsc (l : List (Nat × String)) : List (Nat × String) :=
  l.foldr insertAsc []

/-- Enumeration order of `Object.keys` / `Object.values`: canonical
array-index keys in ascending numeric order first, then the remaining
string keys in insertion order. -/
def jsKeys (m : List (String × α)) : List String :=
  let idx := m.filterMap (fun p => (asArrayIndex p.1).map (fun n => (n, p.1)))
  let rest := (m.filter (fun p => (asArrayIndex p.1).isNone)).map (fun p => p.1)
  (sortAsc idx).map (fun p => p.2) ++ rest

/-- Splitter for dot-separated lookup paths, accumulating the current
segment in reverse. -/
def splitSegs (cur : List Char) : List Char → List String
  | [] => [String.mk cur.reverse]
  | c :: cs =>
    if c = '.' then String.mk cur.reverse :: splitSegs [] cs
    else splitSegs (c :: cur) cs

/-- Dot-separated path split ("a.b" becomes ["a", "b"]). -/
def splitPath (s : String) : List String := splitSegs [] s.toList

/-- Single property step of the path lookup; anything but an object with
the field present yields `undefined`. -/
def getField : JVal → String → JVal
  | .obj fs, k =>
    match assocGet fs k with
    | some v => v
    | none => .undefined
  | _, _ => .undefined

/-- Modelled from the spec: the path lookup `get` (src/core/utils is not
among the provided sources); §4.3 "looked up by a configurable path,
default \"list\"".  Follows lodash get over dot-separated paths. -/
def get (v : JVal) (path : String) : JVal :=
  (splitPath path).foldl getField v

/-- Modelled from the spec: Query Unit State, §3 "{loading: bool, data:
optional R, error: optional Error, params: ordered sequence of P}"
(the State type of src/core/createQuery.ts, which is not among the
provided sources).  `data`/`error` use `JVal.undefined` for the unset value;
`params = none` means the unit has never started a run. -/
structure State where
  loading : Bool
  data : JVal
  error : JVal
  params : Option (List JVal)

/-- Modelled from the spec: createQuery's initial unit state, fresh or
pre-seeded from a cached snapshot (§4.3 cache rehydration). -/
def createQuery : Option State → State
  | some s => s
  | none => { loading := false, data := .undefined, error := .undefined, params := none }

/-- Modelled from the spec: the synchronous part of a unit run, §4.2
"immediately sets loading=true and params=args, invokes the callable"
(loadingDelay is 0 here; the loading-delay smoothing is not exercised by
any claim). -/
def State.runStart (args : List JVal) (s : State) : State :=
  { s with loading := true, params := some args }

/-- Modelled from the spec: resolution of the unit's latest attempt, §4.2
"sets data, clears error, loading=false".  Resolutions of superseded
attempts are dropped by the attempt token and are simply not modelled as
events. -/
def State.resolveSuccess (v : JVal) (s : State) : State :=
  { s with loading := false, data := v, error := .undefined }

/-- Modelled from the spec: rejection of the unit's latest attempt, §4.2
"symmetric handling setting error". -/
def State.resolveError (e : JVal) (s : State) : State :=
  { s with loading := false, error := e }

/-- Modelled from the spec: §4.2 cancel "sets loading=false. Does not
clear data/error". -/
def State.cancelRun (s : State) : State :=
  { s with loading := false }

/-- Modelled from the spec: §4.2 mutate "synchronously overwrites data
without invoking the callable; does not affect loading/error". -/
def State.mutateData (v : JVal) (s : State) : State :=
  { s with data := v }

/-- Modelled from the spec: §4.2 refresh "re-invokes run with the unit's
current params (no-op if params is unset)". -/
def State.refreshUnit (s : State) : State :=
  match s.params with
  | some ps => s.runStart ps
  | none => s

/-- Cache Entry, §3: queries maps sub-keys to unit snapshots,
latestQueriesKey remembers the current sub-key, cacheTime is the write
timestamp consulted by the staleness check in useAsyncQuery.ts line 200. -/
structure CacheEntry where
  queries : List (String × State)
  latestQueriesKey : String
  cacheTime : Int

/-- Process-wide cache store, keyed by the user-supplied cache key. -/
abbrev CacheStore := List (String × CacheEntry)

/-- Modelled from the spec: getCache (src/core/utils/cache is not among
the provided sources); returns the entry for the key, none when the key
is absent or no cacheKey was configured. -/
def getCache (store : CacheStore) (ck : Option String) : Option CacheEntry :=
  match ck with
  | none => none
  | some k => assocGet store k

/-- Modelled from the spec: setCache overwrites the stored entry and
stamps the write time; the deferred TTL-eviction timer (§4.1) is a real
time mechanism and is not modelled. -/
def setCache (store : CacheStore) (k : String) (e : CacheEntry) : CacheStore :=
  assocSet store k e

/-- The constant registry sub-key used when no queryKey function is
supplied (useAsyncQuery.ts line 20). -/
def QUERY_DEFAULT_KEY : String := "__QUERY_DEFAULT_KEY__"

/-- Options of useAsyncQuery, restricted to the fields the claims
exercise (useAsyncQuery.ts lines 31-52, with the source defaults).
`initialReady` is the initial value of the caller-owned `ready` ref. -/
structure Options where
  cacheKey : Option String := none
  cacheTime : Int := 600000
  staleTime : Int := 0
  manual : Bool := false
  initialReady : Bool := true
  defaultParams : List JVal := []
  queryKey : Option (List JVal → String) := none

/-- Sub-key derivation `queryKey?.(...params) ?? QUERY_DEFAULT_KEY`
(useAsyncQuery.ts lines 64-65 and 158). -/
def subKeyOf (o : Options) (ps : List JVal) : String :=
  match o.queryKey with
  | some f => f ps
  | none => QUERY_DEFAULT_KEY

/-- updateCache (useAsyncQuery.ts lines 58-81): no write without a
cacheKey; otherwise one setCache call that overwrites the current
sub-key's snapshot inside the existing queries map (the object spread on
line 73-74 replaces all four fields) and points latestQueriesKey at that
sub-key.  The source spreads `...state.params.value`, so a unit whose
params are unset would throw; that branch returns the store unchanged and
is unreachable from the modelled flows (updateCache runs only after a
resolution, which follows a run start). -/
def updateCache (o : Options) (now : Int) (st : State) (store : CacheStore) :
    CacheStore :=
  match o.cacheKey with
  | none => store
  | some ck =>
    match st.params with
    | none => store
    | some ps =>
      let cacheQueries := ((assocGet store ck).map CacheEntry.queries).getD []
      let currentQueryKey := subKeyOf o ps
      setCache store ck
        { queries := assocSet cacheQueries currentQueryKey st
          latestQueriesKey := currentQueryKey
          cacheTime := now }

/-- The flattened observable view {loading, data, error, params}
(useAsyncQuery.ts lines 98-101).  `loading = none` models the undefined
the sync watch copies out of the `?? {}` fallback when the current key
has no unit. -/
structure ViewState where
  loading : Option Bool
  data : JVal
  error : JVal
  params : Option (List JVal)

/-- Body of the sync watch (useAsyncQuery.ts lines 112-124): copy the
current unit's four fields into the view, or undefined values when the
current key has no unit (`queries[latestQueriesKey] ?? {}`). -/
def syncView : Option State → ViewState
  | some q => { loading := some q.loading, data := q.data, error := q.error, params := q.params }
  | none => { loading := none, data := .undefined, error := .undefined, params := none }

/-- Query Registry state: the keyed unit collection, the current key, the
flattened view, the readiness-gating bookkeeping (tempReadyParams,
hasTriggerReady, stopReady) and the shared cache store it writes through. -/
structure Registry where
  queries : List (String × State)
  latestQueriesKey : String
  view : ViewState
  ready : Bool
  hasTriggerReady : Bool
  tempReadyParams : Option (List JVal)
  stopReadyActive : Bool
  store : CacheStore

/-- Watcher flush: the sync watch of useAsyncQuery.ts lines 112-124 has
no `flush: 'sync'` option, so its callback runs on the scheduler's flush,
not synchronously with the mutation; this step applies that pending
mirror. -/
def Registry.flush (r : Registry) : Registry :=
  { r with view := syncView (assocGet r.queries r.latestQueriesKey) }

/-- run (useAsyncQuery.ts lines 152-167).  When gated
(`!ready && !hasTriggerReady`) the arguments are stored and the resolved
no-op promise is returned: no unit is created or selected and no callable
is invoked (second component none).  Otherwise the sub-key is derived, a
unit is created only when absent, the key becomes current, and the call
delegates to that unit's run (second component carries the delegated key
and arguments). -/
def Registry.run (o : Options) (r : Registry) (args : List JVal) :
    Registry × Option (String × List JVal) :=
  if !r.ready && !r.hasTriggerReady then
    ({ r with tempReadyParams := some args }, none)
  else
    let newKey := subKeyOf o args
    let q0 :=
      match assocGet r.queries newKey with
      | some q => q
      | none => createQuery none
    ({ r with
        queries := assocSet r.queries newKey (q0.runStart args)
        latestQueriesKey := newKey },
      some (newKey, args))

/-- The ready watch (useAsyncQuery.ts lines 218-232, `flush: 'sync'`): it
fires on every change of the ready ref, marks hasTriggerReady, and when
the new value is true and arguments are stored it replays them through
run and destroys itself (stopReady). -/
def Registry.setReady (o : Options) (b : Bool) (r : Registry) : Registry :=
  if b = r.ready then r
  else
    let r1 := { r with ready := b }
    if r.stopReadyActive then
      let r2 := { r1 with hasTriggerReady := true }
      if b then
        match r2.tempReadyParams with
        | some t => { (Registry.run o r2 t).1 with stopReadyActive := false }
        | none => r2
      else r2
    else r1

/-- Resolution of the latest attempt of the unit at key k: commit the
result, then persist through updateCache (config.updateCache is handed to
every unit, useAsyncQuery.ts line 94).  A resolution for a key whose unit
was discarded is dropped (units are cancelled before deletion, so their
settlement is ignored, §4.2). -/
def Registry.settleSuccess (o : Options) (now : Int) (k : String) (v : JVal)
    (r : Registry) : Registry :=
  match assocGet r.queries k with
  | none => r
  | some q =>
    let q1 := q.resolveSuccess v
    { r with
        queries := assocSet r.queries k q1
        store := updateCache o now q1 r.store }

/-- Rejection of the latest attempt of the unit at key k, persisted like a
success (§3: the entry is overwritten on every successful or failed run). -/
def Registry.settleError (o : Options) (now : Int) (k : String) (e : JVal)
    (r : Registry) : Registry :=
  match assocGet r.queries k with
  | none => r
  | some q =>
    let q1 := q.resolveError e
    { r with
        queries := assocSet r.queries k q1
        store := updateCache o now q1 r.store }

/-- mutate (useAsyncQuery.ts line 188) delegates to the current unit;
the overwritten data is persisted (§4.2). -/
def Registry.mutateCurrent (o : Options) (now : Int) (v : JVal) (r : Registry) :
    Registry :=
  match assocGet r.queries r.latestQueriesKey with
  | none => r
  | some q =>
    let q1 := q.mutateData v
    { r with
        queries := assocSet r.queries r.latestQueriesKey q1
        store := updateCache o now q1 r.store }

/-- refresh (useAsyncQuery.ts line 187) delegates to the current unit:
re-run with its params, no-op when they are unset. -/
def Registry.refreshCurrent (r : Registry) :
    Registry × Option (String × List JVal) :=
  match assocGet r.queries r.latestQueriesKey with
  | none => (r, none)
  | some q =>
    match q.params with
    | none => (r, none)
    | some ps =>
      ({ r with queries := assocSet r.queries r.latestQueriesKey (q.runStart ps) },
        some (r.latestQueriesKey, ps))

/-- reset (useAsyncQuery.ts lines 169-175): unmountQueries cancels,
unmounts and deletes every unit, then the default key becomes current
again over a single fresh unit.  The second component lists the keys that
were cancelled and unmounted, in the deletion order of unmountQueries. -/
def resetRegistry (r : Registry) : Registry × List String :=
  ({ r with
      queries := [(QUERY_DEFAULT_KEY, createQuery none)]
      latestQueriesKey := QUERY_DEFAULT_KEY },
    jsKeys r.queries)

/-- Cache rehydration at construction (useAsyncQuery.ts lines 126-148):
each cached sub-key snapshot is turned into a pre-seeded unit, on top of
the default unit created on line 104. -/
def rehydrateQueries (e : CacheEntry) : List (String × State) :=
  e.queries.foldl (fun acc kv => assocSet acc kv.1 (createQuery (some kv.2)))
    [(QUERY_DEFAULT_KEY, createQuery none)]

/-- The construction-time refresh loop of the not-fresh-cache branch
(useAsyncQuery.ts lines 205-208): every unit currently in the map is
refresh()-ed. -/
def refreshAllQueries (qs : List (String × State)) : List (String × State) :=
  (jsKeys qs).foldl
    (fun acc k =>
      match assocGet acc k with
      | some q => assocSet acc k q.refreshUnit
      | none => acc)
    qs

/-- What the automatic initial-run block did at construction: nothing, a
refresh of every present unit (listing the refreshed keys), or one
delegated `run(...defaultParams)`. -/
inductive InitAction where
  | noRun : InitAction
  | refreshedAll (ks : List String) : InitAction
  | ran (args : List JVal) : InitAction

/-- useAsyncQuery construction (useAsyncQuery.ts lines 98-232): build the
default unit and view (the sync watch fires immediately, before
rehydration), rehydrate cached sub-keys and adopt the cached current key,
then, unless manual, run the initial block of lines 190-215: a fresh
cache entry (staleTime -1, or write time + staleTime still in the future)
runs nothing; a stale or absent entry with cached queries refreshes every
unit in the map; otherwise run(...defaultParams) once.  The ready watch
becomes active at the end. -/
def useAsyncQuery (o : Options) (store : CacheStore) (now : Int) :
    Registry × InitAction :=
  let queries0 : List (String × State) := [(QUERY_DEFAULT_KEY, createQuery none)]
  let view0 := syncView (some (createQuery none))
  let cache := getCache store o.cacheKey
  let queries1 :=
    match cache with
    | some e => rehydrateQueries e
    | none => queries0
  let latestKey1 :=
    match cache with
    | some e => if e.latestQueriesKey = "" then QUERY_DEFAULT_KEY else e.latestQueriesKey
    | none => QUERY_DEFAULT_KEY
  let r0 : Registry :=
    { queries := queries1
      latestQueriesKey := latestKey1
      view := view0
      ready := o.initialReady
      hasTriggerReady := false
      tempReadyParams := none
      stopReadyActive := false
      store := store }
  if o.manual then ({ r0 with stopReadyActive := true }, .noRun)
  else
    let cacheQueries := (cache.map CacheEntry.queries).getD []
    let isFresh : Bool :=
      match cache with
      | some e => (o.staleTime == -1) || decide (e.cacheTime + o.staleTime > now)
      | none => false
    let res :=
      if !isFresh then
        if !cacheQueries.isEmpty then
          ({ r0 with queries := refreshAllQueries r0.queries },
            InitAction.refreshedAll (jsKeys r0.queries))
        else
          ((Registry.run o r0 o.defaultParams).1, InitAction.ran o.defaultParams)
      else (r0, InitAction.noRun)
    ({ res.1 with stopReadyActive := true }, res.2)

/-- Post-construction registry events, for stating trace-level claims. -/
inductive RegEvent where
  | callRun (args : List JVal) : RegEvent
  | setReady (b : Bool) : RegEvent
  | settleS (k : String) (v : JVal) : RegEvent
  | settleE (k : String) (e : JVal) : RegEvent
  | flushView : RegEvent

/-- One registry event. -/
def regStep (o : Options) (now : Int) (r : Registry) : RegEvent → Registry
  | .callRun args => (Registry.run o r args).1
  | .setReady b => Registry.setReady o b r
  | .settleS k v => Registry.settleSuccess o now k v r
  | .settleE k e => Registry.settleError o now k e r
  | .flushView => r.flush

/-- Execution of a registry event trace. -/
def regExec (o : Options) (now : Int) : Registry → List RegEvent → Registry
  | r, [] => r
  | r, e :: es => regExec o now (regStep o now r e) es

/-- Whether a trace ever sets the ready flag to true. -/
def readyEverSetTrue : List RegEvent → Bool
  | [] => false
  | .setReady true :: _ => true
  | _ :: es => readyEverSetTrue es

/-- Options of useLoadMore (useLoadMore.ts lines 95-105): the noMore
predicate, the list-extraction path (default "list"), and the options
forwarded to useAsyncQuery.  A user queryKey inside baseOptions is never
forwarded (it is stripped and replaced by the counter key on line 135). -/
structure LoadMoreOptions where
  isNoMore : Option (JVal → Bool) := none
  listKey : String := "list"
  baseOptions : Options := {}

/-- The initial value of the page-key counter
(useLoadMore.ts line 114). -/
def initailIncreaseQueryKey : Nat := 0

/-- The options useLoadMore hands to useAsyncQuery: the forwarded rest
options plus `queryKey: () => String(increaseQueryKey.value)`
(useLoadMore.ts line 135), evaluated at the current counter value. -/
def lmOptions (c : LoadMoreOptions) (counter : Nat) : Options :=
  { c.baseOptions with queryKey := some (fun _ => toString counter) }

/-- Accumulation-layer state: the wrapped registry, the integer page-key
counter, the three activity flags, and latestData — the last
non-undefined value the data view held (useLoadMore.ts lines 111-143). -/
structure LoadMoreState where
  reg : Registry
  increaseQueryKey : Nat
  loadingMore : Bool
  refreshing : Bool
  reloading : Bool
  latestData : JVal

/-- Scheduler flush at an operation boundary: the registry's sync watch
mirrors the current unit into the view, then the watchEffect of
useLoadMore.ts lines 139-143 copies the view's data into latestData
unless it is undefined. -/
def LoadMoreState.sync (st : LoadMoreState) : LoadMoreState :=
  let r := st.reg.flush
  { st with
      reg := r
      latestData := if r.view.data.isUndefined then st.latestData else r.view.data }

/-- useLoadMore construction (useLoadMore.ts lines 111-143): counter at
0, flags down, the registry built with the counter queryKey (so the
automatic initial run, when it happens, targets key "0"), latestData
seeded from the data view, then a flush. -/
def useLoadMore (c : LoadMoreOptions) (store : CacheStore) (now : Int) :
    LoadMoreState × InitAction :=
  let res := useAsyncQuery (lmOptions c initailIncreaseQueryKey) store now
  let st : LoadMoreState :=
    { reg := res.1
      increaseQueryKey := initailIncreaseQueryKey
      loadingMore := false
      refreshing := false
      reloading := false
      latestData := res.1.view.data }
  (st.sync, res.2)

/-- noMore (useLoadMore.ts lines 145-149): the predicate applied to
latestData when supplied, false otherwise. -/
def noMore (c : LoadMoreOptions) (st : LoadMoreState) : Bool :=
  match c.isNoMore with
  | some f => f st.latestData
  | none => false

/-- dataList (useLoadMore.ts lines 151-160): concatenate, over
Object.values(queries) in JS enumeration order, each unit's extracted
list field, skipping extractions that are not arrays. -/
def dataList (c : LoadMoreOptions) (st : LoadMoreState) : List JVal :=
  (jsKeys st.reg.queries).foldl
    (fun acc k =>
      match assocGet st.reg.queries k with
      | some h =>
        match get h.data c.listKey with
        | .arr xs => acc ++ xs
        | _ => acc
      | none => acc)
    []

/-- loadMore (useLoadMore.ts lines 162-173): return immediately when
noMore holds (second component none: no run of any kind starts); else
raise loadingMore, build {dataList, data: latestData} followed by the
trailing params of the view, run, flush.  A none result models the
TypeError the source throws destructuring an undefined params view.  The
second component carries the arguments passed to run. -/
def loadMore (c : LoadMoreOptions) (st : LoadMoreState) :
    Option (LoadMoreState × Option (List JVal)) :=
  if noMore c st then some (st, none)
  else
    let st1 := { st with loadingMore := true }
    match st1.reg.view.params with
    | none => none
    | some ps =>
      let mergerParams :=
        JVal.obj [("dataList", JVal.arr (dataList c st1)), ("data", st1.latestData)]
          :: ps.drop 1
      let res := Registry.run (lmOptions c st1.increaseQueryKey) st1.reg mergerParams
      some (({ st1 with reg := res.1 }).sync, some mergerParams)

/-- Resolution of page key k: commit to the unit, then the onSuccess
wrapper of useLoadMore.ts lines 126-130 drops loadingMore and increments
the counter (the spec's callback-before-persist order, §4.2), then the
persist and the flush.  Resolutions for discarded units were cancelled
first and are dropped. -/
def settleSuccessLM (c : LoadMoreOptions) (now : Int) (k : String) (v : JVal)
    (st : LoadMoreState) : LoadMoreState :=
  match assocGet st.reg.queries k with
  | none => st
  | some q =>
    let q1 := q.resolveSuccess v
    let st1 :=
      { st with
          reg := { st.reg with queries := assocSet st.reg.queries k q1 }
          loadingMore := false
          increaseQueryKey := st.increaseQueryKey + 1 }
    let st2 :=
      { st1 with
          reg := { st1.reg with
            store := updateCache (lmOptions c st1.increaseQueryKey) now q1 st1.reg.store } }
    st2.sync

/-- Rejection of page key k: the onError wrapper of useLoadMore.ts lines
131-134 drops loadingMore and leaves the counter alone. -/
def settleErrorLM (c : LoadMoreOptions) (now : Int) (k : String) (e : JVal)
    (st : LoadMoreState) : LoadMoreState :=
  match assocGet st.reg.queries k with
  | none => st
  | some q =>
    let q1 := q.resolveError e
    let st1 :=
      { st with
          reg := { st.reg with queries := assocSet st.reg.queries k q1 }
          loadingMore := false }
    let st2 :=
      { st1 with
          reg := { st1.reg with
            store := updateCache (lmOptions c st1.increaseQueryKey) now q1 st1.reg.store } }
    st2.sync

/-- unmountQueries of the accumulation layer (useLoadMore.ts lines
175-183): cancel, unmount and delete every unit except key "0"
(initailIncreaseQueryKey), the default-key unit included.  The second
component lists the removed keys in deletion order. -/
def unmountQueriesLM (st : LoadMoreState) : LoadMoreState × List String :=
  (({ st with
      reg := { st.reg with
        queries := st.reg.queries.filter
          (fun p => p.1 = toString initailIncreaseQueryKey) } }),
    (jsKeys st.reg.queries).filter (fun k => k ≠ toString initailIncreaseQueryKey))

/-- First half of refresh (useLoadMore.ts lines 185-195, up to the
await): raise refreshing, snapshot the data of key
`increaseQueryKey - 1` (clamped to 0) into latestData, reset the counter
to 0, re-run with an undefined leading argument followed by the view's
trailing params (the run therefore targets key "0"), flush.  none models
the TypeError on a missing unit at that key or an undefined params view. -/
def refreshStart (c : LoadMoreOptions) (st : LoadMoreState) :
    Option (LoadMoreState × List JVal) :=
  let st0 := { st with refreshing := true }
  let latestKey : Nat :=
    if st0.increaseQueryKey = 0 then initailIncreaseQueryKey
    else st0.increaseQueryKey - 1
  match assocGet st0.reg.queries (toString latestKey) with
  | none => none
  | some q =>
    let st1 :=
      { st0 with latestData := q.data, increaseQueryKey := initailIncreaseQueryKey }
    match st1.reg.view.params with
    | none => none
    | some ps =>
      let mergerParams := JVal.undefined :: ps.drop 1
      let res := Registry.run (lmOptions c st1.increaseQueryKey) st1.reg mergerParams
      some (({ st1 with reg := res.1 }).sync, mergerParams)

/-- Second half of refresh (useLoadMore.ts lines 196-197, after the
await): discard every unit other than key "0", drop refreshing, flush. -/
def refreshFinish (st : LoadMoreState) : LoadMoreState × List String :=
  let res := unmountQueriesLM st
  (({ res.1 with refreshing := false }).sync, res.2)

/-- First half of reload (useLoadMore.ts lines 200-207, up to the await):
raise reloading, reset the registry (all units discarded, fresh default
unit), reset the counter, clear latestData, re-run with an undefined
leading argument followed by the view's trailing params — the view has
not been flushed since the reset, so these are the pre-reset params —
then flush. -/
def reloadStart (c : LoadMoreOptions) (st : LoadMoreState) :
    Option (LoadMoreState × List JVal) :=
  let st0 := { st with reloading := true }
  let res0 := resetRegistry st0.reg
  let st1 :=
    { st0 with
        reg := res0.1
        increaseQueryKey := initailIncreaseQueryKey
        latestData := .undefined }
  match st1.reg.view.params with
  | none => none
  | some ps =>
    let mergerParams := JVal.undefined :: ps.drop 1
    let res := Registry.run (lmOptions c st1.increaseQueryKey) st1.reg mergerParams
    some (({ st1 with reg := res.1 }).sync, mergerParams)

/-- Second half of reload (useLoadMore.ts line 208): drop reloading. -/
def reloadFinish (st : LoadMoreState) : LoadMoreState :=
  { st with reloading := false }

/-- One step of the construction-time refresh loop over the key list. -/
def refreshStep (acc : List (String × State)) (k : String) :
    List (String × State) :=
  match assocGet acc k with
  | some q => assocSet acc k q.refreshUnit
  | none => acc

theorem refreshAllQueries_eq_foldl (qs : List (String × State)) :
    refreshAllQueries qs = (jsKeys qs).foldl refreshStep qs := rfl

theorem assocGet_assocSet_self (m : List (String × α)) (k : String) (v : α) :
    assocGet (assocSet m k v) k = some v := by
  induction m with
  | nil => simp [assocSet, assocGet]
  | cons p rest ih =>
    obtain ⟨k', v'⟩ := p
    by_cases h : k' = k
    · simp [assocSet, assocGet, h]
    · simp [assocSet, assocGet, h, ih]

theorem assocGet_assocSet_ne (m : List (String × α)) (k k' : String) (v : α)
    (h : k' ≠ k) : assocGet (assocSet m k v) k' = assocGet m k' := by
  induction m with
  | nil => simp [assocSet, assocGet, Ne.symm h]
  | cons p rest ih =>
    obtain ⟨k0, v0⟩ := p
    by_cases h0 : k0 = k
    · subst h0
      simp [assocSet, assocGet, Ne.symm h]
    · simp [assocSet, assocGet, h0, ih]

theorem assocGet_isSome_iff (m : List (String × α)) (k : String) :
    (assocGet m k).isSome ↔ k ∈ m.map Prod.fst := by
  induction m with
  | nil => simp [assocGet]
  | cons p rest ih =>
    obtain ⟨k', v'⟩ := p
    by_cases h : k' = k
    · subst h; simp [assocGet]
    · have h' : ¬k = k' := fun hh => h hh.symm
      simp [assocGet, h, h', ih]

theorem mem_insertAsc (x n : Nat × String) (l : List (Nat × String)) :
    x ∈ insertAsc n l ↔ x = n ∨ x ∈ l := by
  induction l with
  | nil => simp [insertAsc]
  | cons m rest ih =>
    by_cases h : n.1 ≤ m.1
    · simp [insertAsc, h]
    · simp [insertAsc, h, ih]
      tauto

theorem mem_sortAsc (x : Nat × String) (l : List (Nat × String)) :
    x ∈ sortAsc l ↔ x ∈ l := by
  induction l with
  | nil => simp [sortAsc]
  | cons a rest ih =>
    show x ∈ insertAsc a (sortAsc rest) ↔ _
    rw [mem_insertAsc]
    simp [ih]

theorem mem_jsKeys (m : List (String × α)) (k : String) :
    k ∈ jsKeys m ↔ k ∈ m.map Prod.fst := by
  simp only [jsKeys, List.mem_append, List.mem_map, mem_sortAsc,
    List.mem_filterMap, List.mem_filter, Option.map_eq_some',
    Option.isNone_iff_eq_none]
  constructor
  · rintro (⟨⟨n, k1⟩, ⟨p, hp, n', hn', heq⟩, rfl⟩ | ⟨p, ⟨hp, hnone⟩, rfl⟩)
    · obtain ⟨h1, h2⟩ := Prod.mk.injEq .. ▸ heq
      exact ⟨p, hp, h2⟩
    · exact ⟨p, hp, rfl⟩
  · rintro ⟨p, hp, rfl⟩
    cases h : asArrayIndex p.1 with
    | none => exact Or.inr ⟨p, ⟨hp, h⟩, rfl⟩
    | some n => exact Or.inl ⟨(n, p.1), ⟨p, hp, n, h, rfl⟩, rfl⟩

theorem refreshUnit_idem (s : State) :
    s.refreshUnit.refreshUnit = s.refreshUnit := by
  cases h : s.params with
  | none => simp [State.refreshUnit, h]
  | some ps => simp [State.refreshUnit, State.runStart, h]

theorem assocGet_refreshStep (acc : List (String × State)) (k k' : String) :
    assocGet (refreshStep acc k) k' =
      if k' = k then (assocGet acc k').map State.refreshUnit
      else assocGet acc k' := by
  by_cases h : k' = k
  · subst h
    cases hq : assocGet acc k' with
    | none => simp [refreshStep, hq]
    | some q => simp [refreshStep, hq, assocGet_assocSet_self]
  · cases hq : assocGet acc k with
    | none => simp [refreshStep, hq, h]
    | some q => simp [refreshStep, hq, h, assocGet_assocSet_ne _ _ _ _ h]

theorem assocGet_refreshFold (ks : List String) (acc : List (String × State))
    (k : String) :
    assocGet (ks.foldl refreshStep acc) k =
      if k ∈ ks then (assocGet acc k).map State.refreshUnit
      else assocGet acc k := by
  induction ks generalizing acc with
  | nil => simp
  | cons a ks ih =>
    rw [List.foldl_cons, ih, assocGet_refreshStep]
    by_cases h1 : k = a
    · subst h1
      by_cases h2 : k ∈ ks
      · simp only [if_pos h2, if_pos rfl, if_pos (List.mem_cons_self k ks)]
        cases assocGet acc k with
        | none => rfl
        | some q => simp [refreshUnit_idem]
      · simp [h2]
    · by_cases h2 : k ∈ ks
      · simp [h1, h2]
      · simp [h1, h2]

/-- C2: counterexample.  The claim states that a run(args) made while
ready is false, with ready never yet transitioned to true, stores args
and invokes nothing.  But the gate on useAsyncQuery.ts line 153 checks
hasTriggerReady, which the ready watch raises on every change of ready,
not only on a change to true: starting from a registry whose ready ref
was initially true, one setReady false (the trace never sets ready to
true) leaves ready false at call time, yet run([5]) creates/selects the
default unit and delegates to its run, and stores no arguments. -/
theorem readiness_gating_cex :
    let o : Options := { manual := true }
    let r1 := regExec o 0 (useAsyncQuery o [] 0).1 [RegEvent.setReady false]
    readyEverSetTrue [RegEvent.setReady false] = false ∧
    r1.ready = false ∧
    (Registry.run o r1 [JVal.num 5]).2 = some (QUERY_DEFAULT_KEY, [JVal.num 5]) ∧
    (Registry.run o r1 [JVal.num 5]).1.tempReadyParams = none :=
  ⟨rfl, rfl, rfl, rfl⟩

/-- C2 (amended): replace "ready has never transitioned to true" by
"ready has never changed since construction (the ready watch has never
fired, hasTriggerReady is still false)".  Then: (1) a gated run stores
the arguments and returns the resolved no-op promise, touching no unit;
(2) while the watch is active and arguments are stored, the first change
of ready to true replays exactly the stored arguments through run and
tears the watch down; (3) once the watch is torn down, a ready change
only updates the flag — stored arguments are never replayed again. -/
theorem readiness_gating_amended (o : Options) (r : Registry)
    (args t : List JVal) :
    (r.ready = false → r.hasTriggerReady = false →
      Registry.run o r args = ({ r with tempReadyParams := some args }, none)) ∧
    (r.ready = false → r.stopReadyActive = true → r.tempReadyParams = some t →
      Registry.setReady o true r =
        { (Registry.run o { r with ready := true, hasTriggerReady := true } t).1
            with stopReadyActive := false }) ∧
    (r.stopReadyActive = false → ∀ b, Registry.setReady o b r = { r with ready := b }) := by
  refine ⟨?_, ?_, ?_⟩
  · intro h1 h2
    simp [Registry.run, h1, h2]
  · intro h1 h2 h3
    simp [Registry.setReady, h1, h2, h3]
  · intro h1 b
    by_cases hb : b = r.ready
    · subst hb; simp [Registry.setReady]
    · simp [Registry.setReady, hb, h1]

/-- Witness for readiness_gating_amended: a registry constructed with
ready initially false; run([5]) is gated and stores [5]; setReady true
replays [5] and tears the watch down; a later setReady false only
updates the flag. -/
theorem readiness_gating_amended_witness :
    let o : Options := { manual := true, initialReady := false }
    let r0 := (useAsyncQuery o [] 0).1
    let r1 := (Registry.run o r0 [JVal.num 5]).1
    (Registry.run o r0 [JVal.num 5] =
      ({ r0 with tempReadyParams := some [JVal.num 5] }, none)) ∧
    (Registry.setReady o true r1 =
      { (Registry.run o { r1 with ready := true, hasTriggerReady := true }
          [JVal.num 5]).1 with stopReadyActive := false }) ∧
    (Registry.setReady o false (Registry.setReady o true r1) =
      { Registry.setReady o true r1 with ready := false }) := by
  refine ⟨?_, ?_, ?_⟩
  · exact (readiness_gating_amended _ _ [JVal.num 5] [JVal.num 5]).1 rfl rfl
  · exact (readiness_gating_amended _ _ [JVal.num 5] [JVal.num 5]).2.1 rfl rfl rfl
  · exact (readiness_gating_amended _ _ [JVal.num 5] [JVal.num 5]).2.2 rfl false

/-- C5: run with readiness satisfied derives the sub-key from queryKey
(or the constant default key), lazily creates a unit exactly when the key
has none, makes that key current, and delegates to that unit's run with
the same arguments; units under every other key are untouched. -/
theorem registry_run_spec (o : Options) (r : Registry) (args : List JVal)
    (hready : r.ready = true ∨ r.hasTriggerReady = true) :
    (Registry.run o r args).1.latestQueriesKey = subKeyOf o args ∧
    (Registry.run o r args).2 = some (subKeyOf o args, args) ∧
    (assocGet r.queries (subKeyOf o args) = none →
      assocGet (Registry.run o r args).1.queries (subKeyOf o args) =
        some ((createQuery none).runStart args)) ∧
    (∀ q, assocGet r.queries (subKeyOf o args) = some q →
      assocGet (Registry.run o r args).1.queries (subKeyOf o args) =
        some (q.runStart args)) ∧
    (∀ k', k' ≠ subKeyOf o args →
      assocGet (Registry.run o r args).1.queries k' = assocGet r.queries k') := by
  have hg : (!r.ready && !r.hasTriggerReady) = false := by
    rcases hready with h | h <;> simp [h]
  refine ⟨?_, ?_, ?_, ?_, ?_⟩ <;>
    simp only [Registry.run, hg, Bool.false_eq_true, if_false]
  · intro h
    simp [h, assocGet_assocSet_self]
  · intro q h
    simp [h, assocGet_assocSet_self]
  · intro k' h
    simp [assocGet_assocSet_ne _ _ _ _ h]

/-- Witness for registry_run_spec: a manual registry with
queryKey () => "page"; run([7]) makes "page" current, creates the unit
for "page" in loading state with params [7], delegates (key, args), and
leaves the default-key unit alone. -/
theorem registry_run_spec_witness :
    let o : Options := { manual := true, queryKey := some (fun _ => "page") }
    let r0 := (useAsyncQuery o [] 0).1
    let res := Registry.run o r0 [JVal.num 7]
    res.1.latestQueriesKey = "page" ∧
    res.2 = some ("page", [JVal.num 7]) ∧
    assocGet res.1.queries "page" = some ((createQuery none).runStart [JVal.num 7]) ∧
    assocGet res.1.queries QUERY_DEFAULT_KEY = assocGet r0.queries QUERY_DEFAULT_KEY := by
  refine ⟨?_, ?_, ?_, ?_⟩
  · exact (registry_run_spec _ _ [JVal.num 7] (Or.inl rfl)).1
  · exact (registry_run_spec _ _ [JVal.num 7] (Or.inl rfl)).2.1
  · exact (registry_run_spec _ _ [JVal.num 7] (Or.inl rfl)).2.2.1 rfl
  · exact (registry_run_spec _ _ [JVal.num 7] (Or.inl rfl)).2.2.2.2
      QUERY_DEFAULT_KEY (by decide)

/-- C7: counterexample.  The sync watch of useAsyncQuery.ts lines 112-124
passes immediate and deep but no flush sync (contrast the ready watch on
lines 219-232), so the mirror runs at watcher-flush time, not
synchronously with the state change: after run, and before the scheduler
flush, the current unit is loading while the flattened view still shows
loading = false — the view does not equal the current unit's fields at
every moment. -/
theorem view_sync_cex :
    let o : Options := { manual := true }
    let r1 := (Registry.run o (useAsyncQuery o [] 0).1 [JVal.num 1]).1
    r1.view.loading = some false ∧
    (syncView (assocGet r1.queries r1.latestQueriesKey)).loading = some true ∧
    (some false : Option Bool) ≠ some true :=
  ⟨rfl, rfl, by simp⟩

/-- C7 (amended): exactly one key is current at any time (the current key
is the single latestQueriesKey value), and the view is re-synchronized
from the current unit at watcher-flush boundaries: a flush makes the view
equal the current unit's {loading, data, error, params} (all-undefined
when the current key has no unit), flushing is idempotent, and switching
the current key re-mirrors the new unit's full state at the next flush —
but between a mutation and the next flush the view may be stale. -/
theorem view_sync_amended (r : Registry) :
    (Registry.flush r).view = syncView (assocGet r.queries r.latestQueriesKey) ∧
    Registry.flush (Registry.flush r) = Registry.flush r ∧
    (∀ q, assocGet r.queries r.latestQueriesKey = some q →
      (Registry.flush r).view =
        { loading := some q.loading, data := q.data, error := q.error,
          params := q.params }) := by
  refine ⟨rfl, rfl, ?_⟩
  intro q h
  simp [Registry.flush, h, syncView]

/-- Witness for view_sync_amended: flushing a freshly built manual
registry mirrors the default unit's fields into the view. -/
theorem view_sync_amended_witness :
    let o : Options := { manual := true }
    let r0 := (useAsyncQuery o [] 0).1
    (Registry.flush r0).view =
      { loading := some false, data := JVal.undefined, error := JVal.undefined,
        params := none } :=
  (view_sync_amended _).2.2 (createQuery none) rfl

/-- C8: after reset, the key map holds exactly one freshly created unit
under the default key (data and error unset, loading false), the default
key is current, and the list of cancelled-and-unmounted keys covers
exactly the keys that previously had units. -/
theorem reset_spec (r : Registry) :
    (resetRegistry r).1.queries = [(QUERY_DEFAULT_KEY, createQuery none)] ∧
    (resetRegistry r).1.latestQueriesKey = QUERY_DEFAULT_KEY ∧
    (createQuery none).data = JVal.undefined ∧
    (createQuery none).error = JVal.undefined ∧
    (createQuery none).loading = false ∧
    (resetRegistry r).2 = jsKeys r.queries ∧
    (∀ k, k ∈ (resetRegistry r).2 ↔ (assocGet r.queries k).isSome) := by
  refine ⟨rfl, rfl, rfl, rfl, rfl, rfl, ?_⟩
  intro k
  rw [show (resetRegistry r).2 = jsKeys r.queries from rfl, mem_jsKeys]
  exact (assocGet_isSome_iff r.queries k).symm

theorem assocGet_filterKey_self (m : List (String × α)) (a : String) :
    assocGet (m.filter (fun p => p.1 = a)) a = assocGet m a := by
  induction m with
  | nil => simp
  | cons p rest ih =>
    obtain ⟨k0, v0⟩ := p
    by_cases h : k0 = a
    · subst h; simp [assocGet]
    · simp [assocGet, h, ih]

theorem assocGet_filterKey_ne (m : List (String × α)) (a k : String)
    (h : k ≠ a) : assocGet (m.filter (fun p => p.1 = a)) k = none := by
  induction m with
  | nil => simp [assocGet]
  | cons p rest ih =>
    obtain ⟨k0, v0⟩ := p
    by_cases h0 : k0 = a
    · subst h0
      simp [assocGet, Ne.symm h, ih]
    · simp [assocGet, h0, ih]

/-- C4: the automatic initial-run behaviour at construction, manual not
set.  A cache entry that is fresh (staleTime -1, or write time plus
staleTime still in the future) runs nothing; a stale entry with cached
query snapshots refresh()-es every unit of the rehydrated map (and
run(...defaultParams) does not execute); an absent entry, or a stale one
with no snapshots, executes run(...defaultParams) exactly once. -/
theorem initial_run_spec (o : Options) (store : CacheStore) (now : Int)
    (hm : o.manual = false) :
    (∀ e, getCache store o.cacheKey = some e →
      (o.staleTime = -1 ∨ e.cacheTime + o.staleTime > now) →
      (useAsyncQuery o store now).2 = InitAction.noRun) ∧
    (∀ e, getCache store o.cacheKey = some e →
      ¬(o.staleTime = -1 ∨ e.cacheTime + o.staleTime > now) →
      e.queries ≠ [] →
      (useAsyncQuery o store now).2 =
          InitAction.refreshedAll (jsKeys (rehydrateQueries e)) ∧
        (useAsyncQuery o store now).1.queries =
          refreshAllQueries (rehydrateQueries e) ∧
        (∀ k q, assocGet (rehydrateQueries e) k = some q →
          assocGet (useAsyncQuery o store now).1.queries k =
            some q.refreshUnit)) ∧
    (getCache store o.cacheKey = none →
      (useAsyncQuery o store now).2 = InitAction.ran o.defaultParams) ∧
    (∀ e, getCache store o.cacheKey = some e →
      ¬(o.staleTime = -1 ∨ e.cacheTime + o.staleTime > now) →
      e.queries = [] →
      (useAsyncQuery o store now).2 = InitAction.ran o.defaultParams) := by
  refine ⟨?_, ?_, ?_, ?_⟩
  · intro e hc hf
    have hfb : ((o.staleTime == -1) || decide (e.cacheTime + o.staleTime > now)) = true := by
      rcases hf with h | h <;> simp [h]
    simp [useAsyncQuery, hm, hc, hfb]
  · intro e hc hf hq
    have hfb : ((o.staleTime == -1) || decide (e.cacheTime + o.staleTime > now)) = false := by
      push_neg at hf
      simp [hf.1, hf.2]
    have hqb : e.queries.isEmpty = false := by
      cases hcase : e.queries with
      | nil => exact absurd hcase hq
      | cons a l => rfl
    refine ⟨?_, ?_, ?_⟩
    · simp [useAsyncQuery, hm, hc, hfb, hqb]
    · simp [useAsyncQuery, hm, hc, hfb, hqb]
    · intro k q hk
      have hmem : k ∈ jsKeys (rehydrateQueries e) := by
        rw [mem_jsKeys]
        rw [← assocGet_isSome_iff]
        simp [hk]
      have h1 : (useAsyncQuery o store now).1.queries =
          refreshAllQueries (rehydrateQueries e) := by
        simp [useAsyncQuery, hm, hc, hfb, hqb]
      rw [h1, refreshAllQueries_eq_foldl, assocGet_refreshFold, if_pos hmem, hk]
      rfl
  · intro hc
    simp [useAsyncQuery, hm, hc]
  · intro e hc hf hq
    have hfb : ((o.staleTime == -1) || decide (e.cacheTime + o.staleTime > now)) = false := by
      push_neg at hf
      simp [hf.1, hf.2]
    simp [useAsyncQuery, hm, hc, hfb, hq]

/-- A cached snapshot used to exercise the construction branches. -/
def snap4 : State :=
  { loading := false, data := JVal.num 7, error := JVal.undefined,
    params := some [JVal.num 1] }

/-- A cache entry written at time 0 holding one default-key snapshot. -/
def entry4 : CacheEntry :=
  { queries := [(QUERY_DEFAULT_KEY, snap4)]
    latestQueriesKey := QUERY_DEFAULT_KEY
    cacheTime := 0 }

/-- A store holding entry4 under the cache key "ck". -/
def store4 : CacheStore := [("ck", entry4)]

/-- Options whose cache entry is never stale (staleTime -1). -/
def opts4fresh : Options := { cacheKey := some "ck", staleTime := -1 }

/-- Options whose cache entry is immediately stale (staleTime 0). -/
def opts4stale : Options := { cacheKey := some "ck", staleTime := 0 }

/-- Options with no cacheKey and explicit defaultParams. -/
def opts4plain : Options := { defaultParams := [JVal.num 3] }

/-- Witness for initial_run_spec, following the spec scenarios: with
staleTime -1 and a prior entry nothing runs; the same entry gone stale
gets its rehydrated default-key unit refresh()-ed; with no cache at all,
run(...defaultParams) executes. -/
theorem initial_run_spec_witness :
    (useAsyncQuery opts4fresh store4 1000).2 = InitAction.noRun ∧
    (useAsyncQuery opts4stale store4 1000).2 =
      InitAction.refreshedAll (jsKeys (rehydrateQueries entry4)) ∧
    assocGet (useAsyncQuery opts4stale store4 1000).1.queries
      QUERY_DEFAULT_KEY = some ((createQuery (some snap4)).refreshUnit) ∧
    (useAsyncQuery opts4plain [] 1000).2 = InitAction.ran [JVal.num 3] := by
  refine ⟨?_, ?_, ?_, ?_⟩
  · exact (initial_run_spec opts4fresh store4 1000 rfl).1 entry4 rfl (Or.inl rfl)
  · exact ((initial_run_spec opts4stale store4 1000 rfl).2.1 entry4 rfl
      (by decide) (List.cons_ne_nil _ _)).1
  · exact ((initial_run_spec opts4stale store4 1000 rfl).2.1 entry4 rfl
      (by decide) (List.cons_ne_nil _ _)).2.2
      QUERY_DEFAULT_KEY (createQuery (some snap4)) rfl
  · exact (initial_run_spec opts4plain [] 1000 rfl).2.2.1 rfl

/-- C9: frame property of the shared cache store.  run, reset, refresh
and ready changes never write the store; without a cacheKey updateCache
(the only writer, handed to every unit) is the identity, so settlements
and mutations leave the store unchanged; with a cacheKey each unit state
change performs exactly one setCache write that installs the changed
snapshot under the derived current sub-key inside the entry's existing
queries map and points latestQueriesKey at that sub-key (the entry is
re-read from the store at write time — no construction-time snapshot of
it is kept). -/
theorem cache_frame_spec (o : Options) (now : Int) :
    (∀ r args, (Registry.run o r args).1.store = r.store) ∧
    (∀ r, (resetRegistry r).1.store = r.store) ∧
    (∀ r, (Registry.refreshCurrent r).1.store = r.store) ∧
    (∀ b r, (Registry.setReady o b r).store = r.store) ∧
    (o.cacheKey = none →
      (∀ st store, updateCache o now st store = store) ∧
      (∀ r k v, (Registry.settleSuccess o now k v r).store = r.store) ∧
      (∀ r k e, (Registry.settleError o now k e r).store = r.store) ∧
      (∀ r v, (Registry.mutateCurrent o now v r).store = r.store)) ∧
    (∀ ck st ps store, o.cacheKey = some ck → st.params = some ps →
      updateCache o now st store =
        setCache store ck
          { queries :=
              assocSet (((assocGet store ck).map CacheEntry.queries).getD [])
                (subKeyOf o ps) st
            latestQueriesKey := subKeyOf o ps
            cacheTime := now }) ∧
    (∀ r k v q, assocGet r.queries k = some q →
      (Registry.settleSuccess o now k v r).store =
        updateCache o now (q.resolveSuccess v) r.store) := by
  have hrun : ∀ r args, (Registry.run o r args).1.store = r.store := by
    intro r args
    unfold Registry.run
    split
    · rfl
    · rfl
  refine ⟨hrun, fun r => rfl, ?_, ?_, ?_, ?_, ?_⟩
  · intro r
    unfold Registry.refreshCurrent
    split
    · rfl
    · split <;> rfl
  · intro b r
    by_cases hb : b = r.ready
    · simp [Registry.setReady, hb]
    · by_cases hs : r.stopReadyActive = true
      · cases b with
        | false => simp [Registry.setReady, hb, hs]
        | true =>
          cases ht : r.tempReadyParams with
          | none => simp [Registry.setReady, hb, hs, ht]
          | some t => simp [Registry.setReady, hb, hs, ht, hrun]
      · have hs' : r.stopReadyActive = false := by
          cases hcase : r.stopReadyActive
          · rfl
          · exact absurd hcase hs
        simp [Registry.setReady, hb, hs']
  · intro hck
    have hup : ∀ st store, updateCache o now st store = store := by
      intro st store
      simp [updateCache, hck]
    refine ⟨hup, ?_, ?_, ?_⟩
    · intro r k v
      unfold Registry.settleSuccess
      split
      · rfl
      · simp [hup]
    · intro r k e
      unfold Registry.settleError
      split
      · rfl
      · simp [hup]
    · intro r v
      unfold Registry.mutateCurrent
      split
      · rfl
      · simp [hup]
  · intro ck st ps store hck hps
    simp [updateCache, hck, hps]
  · intro r k v q hk
    simp [Registry.settleSuccess, hk]

/-- Witness for cache_frame_spec: without a cacheKey a settlement leaves
the empty store empty; with cacheKey "ck" the write of a settled snapshot
produces exactly the described single-entry store. -/
theorem cache_frame_spec_witness :
    let oNone : Options := {}
    let oCk : Options := { cacheKey := some "ck" }
    let snap : State :=
      { loading := false, data := JVal.num 7, error := JVal.undefined,
        params := some [JVal.num 1] }
    (∀ r k v, (Registry.settleSuccess oNone 5 k v r).store = r.store) ∧
    updateCache oCk 5 snap [] =
      setCache [] "ck"
        { queries := assocSet [] (subKeyOf oCk [JVal.num 1]) snap
          latestQueriesKey := subKeyOf oCk [JVal.num 1]
          cacheTime := 5 } := by
  refine ⟨?_, ?_⟩
  · exact ((cache_frame_spec _ 5).2.2.2.2.1 rfl).2.1
  · exact (cache_frame_spec _ 5).2.2.2.2.2.1 "ck" _ [JVal.num 1] [] rfl rfl

theorem dataList_loadingMore (c : LoadMoreOptions) (st : LoadMoreState)
    (b : Bool) : dataList c { st with loadingMore := b } = dataList c st := rfl

theorem initailKey_eq : toString initailIncreaseQueryKey = "0" := rfl

/-- C1: loadMore dynamics.  When the noMore predicate holds of the
latest data, loadMore is a no-op: the state is returned unchanged and no
run is called (second component none).  Otherwise run is invoked with
{dataList, data: latestData} followed by the trailing original
parameters, and the counter is not incremented by the call itself; the
counter is incremented exactly inside the success callback of a
resolving run, and never by a failing one. -/
theorem loadmore_spec (c : LoadMoreOptions) (now : Int) (st : LoadMoreState)
    (ps : List JVal) :
    (noMore c st = true → loadMore c st = some (st, none)) ∧
    (noMore c st = false → st.reg.view.params = some ps →
      (∃ st2, loadMore c st =
          some (st2,
            some (JVal.obj [("dataList", JVal.arr (dataList c st)),
                ("data", st.latestData)] :: ps.drop 1)) ∧
        st2.increaseQueryKey = st.increaseQueryKey)) ∧
    (∀ k v q, assocGet st.reg.queries k = some q →
      (settleSuccessLM c now k v st).increaseQueryKey =
        st.increaseQueryKey + 1) ∧
    (∀ k v, assocGet st.reg.queries k = none →
      settleSuccessLM c now k v st = st) ∧
    (∀ k e, (settleErrorLM c now k e st).increaseQueryKey =
      st.increaseQueryKey) := by
  refine ⟨?_, ?_, ?_, ?_, ?_⟩
  · intro h
    simp [loadMore, h]
  · intro h1 h2
    refine ⟨LoadMoreState.sync
      { st with
          loadingMore := true
          reg := (Registry.run (lmOptions c st.increaseQueryKey) st.reg
            (JVal.obj [("dataList", JVal.arr (dataList c st)),
              ("data", st.latestData)] :: ps.drop 1)).1 }, ?_, rfl⟩
    simp [loadMore, h1, h2, dataList_loadingMore, LoadMoreState.sync]
  · intro k v q hk
    simp [settleSuccessLM, hk, LoadMoreState.sync]
  · intro k v hk
    simp [settleSuccessLM, hk]
  · intro k e
    cases hk : assocGet st.reg.queries k with
    | none => simp [settleErrorLM, hk]
    | some q => simp [settleErrorLM, hk, LoadMoreState.sync]

/-- The first page's result in the concrete loadMore traces. -/
def pageA : JVal := JVal.obj [("list", JVal.arr [JVal.num 1, JVal.num 2])]

/-- The second page's result in the concrete loadMore traces. -/
def pageB : JVal := JVal.obj [("list", JVal.arr [JVal.num 3, JVal.num 4])]

/-- Accumulation options whose noMore predicate fires as soon as the
latest data is defined. -/
def optsNoMore : LoadMoreOptions :=
  { isNoMore := some (fun d => !d.isUndefined) }

/-- Accumulation options with every default (no noMore predicate). -/
def optsPlain : LoadMoreOptions := {}

/-- A one-page accumulation state whose noMore predicate holds. -/
def stNoMore : LoadMoreState :=
  settleSuccessLM optsNoMore 0 "0" pageA (useLoadMore optsNoMore [] 0).1

/-- A one-page accumulation state with no noMore predicate. -/
def stPlain : LoadMoreState :=
  settleSuccessLM optsPlain 0 "0" pageA (useLoadMore optsPlain [] 0).1

/-- Witness for loadmore_spec: on the noMore state loadMore is a no-op;
on the plain one-page state it runs with {dataList: [1,2], data: page 1}
and the counter moves only on the success settlement, not on the error
one. -/
theorem loadmore_spec_witness :
    (loadMore optsNoMore stNoMore = some (stNoMore, none)) ∧
    (∃ st2, loadMore optsPlain stPlain =
        some (st2,
          some (JVal.obj [("dataList", JVal.arr (dataList optsPlain stPlain)),
              ("data", stPlain.latestData)] :: List.drop 1 ([] : List JVal))) ∧
      st2.increaseQueryKey = stPlain.increaseQueryKey) ∧
    (settleSuccessLM optsPlain 0 "0" pageB stPlain).increaseQueryKey =
      stPlain.increaseQueryKey + 1 ∧
    (settleErrorLM optsPlain 0 "0" (JVal.str "boom") stPlain).increaseQueryKey =
      stPlain.increaseQueryKey := by
  refine ⟨?_, ?_, ?_, ?_⟩
  · exact (loadmore_spec optsNoMore 0 stNoMore []).1 rfl
  · exact (loadmore_spec optsPlain 0 stPlain []).2.1 rfl rfl
  · exact (loadmore_spec optsPlain 0 stPlain []).2.2.1 "0" pageB
      { loading := false, data := pageA, error := JVal.undefined,
        params := some [] } rfl
  · exact (loadmore_spec optsPlain 0 stPlain []).2.2.2.2 "0" (JVal.str "boom")

/-- C6: the accumulated list is the concatenation, in the map's
enumeration order — ascending page keys first, the default key (whose
unit never holds page data here) last — of each unit's extracted list
field, absent or non-array extractions contributing nothing.  Concretely:
page 1 resolves {list:[1,2]} giving dataList [1,2]; a loadMore resolving
{list:[3,4]} gives dataList [1,2,3,4]; a further page resolving an
object with no list field, and one whose list field is not an array,
both leave dataList at [1,2,3,4]. -/
theorem datalist_concat_spec :
    let c : LoadMoreOptions := {}
    let s1 := settleSuccessLM c 0 "0" pageA (useLoadMore c [] 0).1
    let s2 := match loadMore c s1 with | some pr => pr.1 | none => s1
    let s3 := settleSuccessLM c 0 "1" pageB s2
    let s4 := match loadMore c s3 with | some pr => pr.1 | none => s3
    let s5 := settleSuccessLM c 0 "2"
      (JVal.obj [("items", JVal.arr [JVal.num 9])]) s4
    let s6 := match loadMore c s5 with | some pr => pr.1 | none => s5
    let s7 := settleSuccessLM c 0 "3" (JVal.obj [("list", JVal.num 7)]) s6
    jsKeys s1.reg.queries = ["0", QUERY_DEFAULT_KEY] ∧
    dataList c s1 = [JVal.num 1, JVal.num 2] ∧
    noMore c s1 = false ∧
    jsKeys s3.reg.queries = ["0", "1", QUERY_DEFAULT_KEY] ∧
    dataList c s3 = [JVal.num 1, JVal.num 2, JVal.num 3, JVal.num 4] ∧
    dataList c s5 = [JVal.num 1, JVal.num 2, JVal.num 3, JVal.num 4] ∧
    dataList c s7 = [JVal.num 1, JVal.num 2, JVal.num 3, JVal.num 4] :=
  ⟨rfl, rfl, rfl, rfl, rfl, rfl, rfl⟩

/-- C3: counterexample.  Three pages resolve lists [1,2], [3,4], [5,6]
under keys "0", "1", "2" (counter 3).  The claim says refresh() re-runs
using the second-most-recent key's data and collapses the registry to
one unit whose params equal page-2's params, discarding pages 1 and 3.
In the code increaseQueryKey - 1 = 2 is the most-recent existing key,
the counter is reset to 0 before the re-run, so the re-run targets key
"0": the surviving unit is page 1's unit re-run with params [undefined]
— not page-2's params (a merged {dataList, data} object) — and the
discarded keys are "1" and "2" (pages 2 and 3) plus the default key. -/
theorem loadmore_refresh_cex :
    let c : LoadMoreOptions := {}
    let p3 := JVal.obj [("list", JVal.arr [JVal.num 5, JVal.num 6])]
    let pageTwoParams : Option (List JVal) :=
      some [JVal.obj [("dataList", JVal.arr [JVal.num 1, JVal.num 2]),
        ("data", pageA)]]
    let s1 := settleSuccessLM c 0 "0" pageA (useLoadMore c [] 0).1
    let s2 := match loadMore c s1 with | some pr => pr.1 | none => s1
    let s3 := settleSuccessLM c 0 "1" pageB s2
    let s4 := match loadMore c s3 with | some pr => pr.1 | none => s3
    let s5 := settleSuccessLM c 0 "2" p3 s4
    let s6 := match refreshStart c s5 with | some pr => pr.1 | none => s5
    let s7 := settleSuccessLM c 0 "0"
      (JVal.obj [("list", JVal.arr [JVal.num 9])]) s6
    let s8 := (refreshFinish s7).1
    s5.increaseQueryKey = 3 ∧
    (assocGet s3.reg.queries "1").map State.params = some pageTwoParams ∧
    jsKeys s8.reg.queries = ["0"] ∧
    (refreshFinish s7).2 = ["1", "2", QUERY_DEFAULT_KEY] ∧
    (assocGet s8.reg.queries "0").map State.params = some (some [JVal.undefined]) ∧
    some [JVal.undefined] ≠ pageTwoParams := by
  refine ⟨rfl, rfl, rfl, rfl, rfl, ?_⟩
  simp

/-- C3 (amended): refresh() raises the refreshing flag, snapshots the
data of the most-recent page key (increaseQueryKey - 1, clamped to the
initial key 0) into the exposed latest data, resets the counter to 0,
and re-runs with a synthesized undefined leading argument followed by
the view's trailing parameters — the re-run therefore targets key "0",
whose unit ends up loading with exactly those arguments as params; after
the run settles, every unit other than key "0" (the default-key unit
included) is cancelled, unmounted and deleted, collapsing the registry
to the single key-0 unit, and the refreshing flag drops. -/
theorem loadmore_refresh_amended (c : LoadMoreOptions) (st : LoadMoreState)
    (q : State) (ps : List JVal)
    (hq : assocGet st.reg.queries
        (toString (if st.increaseQueryKey = 0 then initailIncreaseQueryKey
          else st.increaseQueryKey - 1)) = some q)
    (hp : st.reg.view.params = some ps)
    (hready : st.reg.ready = true ∨ st.reg.hasTriggerReady = true) :
    (∃ st2, refreshStart c st = some (st2, JVal.undefined :: ps.drop 1) ∧
      st2.increaseQueryKey = 0 ∧
      st2.refreshing = true ∧
      st2.reg.latestQueriesKey = toString initailIncreaseQueryKey ∧
      (assocGet st2.reg.queries (toString initailIncreaseQueryKey)).map
          State.params = some (some (JVal.undefined :: ps.drop 1)) ∧
      (assocGet st2.reg.queries (toString initailIncreaseQueryKey)).map
          State.loading = some true) ∧
    (∀ s : LoadMoreState,
      assocGet (refreshFinish s).1.reg.queries
          (toString initailIncreaseQueryKey) =
        assocGet s.reg.queries (toString initailIncreaseQueryKey) ∧
      (∀ k, k ≠ toString initailIncreaseQueryKey →
        assocGet (refreshFinish s).1.reg.queries k = none) ∧
      (refreshFinish s).1.refreshing = false ∧
      (refreshFinish s).2 = (jsKeys s.reg.queries).filter
        (fun k => k ≠ toString initailIncreaseQueryKey)) := by
  have hg : (!st.reg.ready && !st.reg.hasTriggerReady) = false := by
    rcases hready with h | h <;> simp [h]
  constructor
  · refine ⟨LoadMoreState.sync
      { st with
          refreshing := true
          increaseQueryKey := initailIncreaseQueryKey
          latestData := q.data
          reg := (Registry.run (lmOptions c initailIncreaseQueryKey) st.reg
            (JVal.undefined :: ps.drop 1)).1 }, ?_, rfl, rfl, ?_, ?_, ?_⟩
    · simp [refreshStart, hq, hp]
    · simp [LoadMoreState.sync, Registry.flush, Registry.run, hg, lmOptions,
        subKeyOf]
    · simp [LoadMoreState.sync, Registry.flush, Registry.run, hg, lmOptions,
        subKeyOf, assocGet_assocSet_self, State.runStart]
    · simp [LoadMoreState.sync, Registry.flush, Registry.run, hg, lmOptions,
        subKeyOf, assocGet_assocSet_self, State.runStart]
  · intro s
    refine ⟨?_, ?_, rfl, rfl⟩
    · exact assocGet_filterKey_self _ _
    · intro k hk
      exact assocGet_filterKey_ne _ _ _ hk

/-- Witness for loadmore_refresh_amended, on the one-page state: refresh
re-runs key "0" with params [undefined], and finishing keeps exactly the
key-0 unit. -/
theorem loadmore_refresh_amended_witness :
    (∃ st2, refreshStart optsPlain stPlain = some (st2, [JVal.undefined]) ∧
      st2.increaseQueryKey = 0 ∧
      st2.refreshing = true ∧
      st2.reg.latestQueriesKey = "0" ∧
      (assocGet st2.reg.queries "0").map State.params =
        some (some [JVal.undefined]) ∧
      (assocGet st2.reg.queries "0").map State.loading = some true) ∧
    assocGet (refreshFinish stPlain).1.reg.queries "0" =
      assocGet stPlain.reg.queries "0" := by
  have h := loadmore_refresh_amended optsPlain stPlain
    { loading := false, data := pageA, error := JVal.undefined, params := some [] }
    [] rfl rfl (Or.inl rfl)
  exact ⟨h.1, (h.2 stPlain).1⟩

/-- C10: the exposed data of the accumulation layer (latestData, returned
as `data`) is the last non-undefined value of the underlying data view: a
resolution of the current key with a defined value replaces it, a
resolution with undefined leaves it at the previous value; reload() sets
it to undefined; and refresh() leaves it holding the retained key-0
unit's cached data once the flush runs (the synchronous snapshot of the
most-recent page's data is overwritten by the flushed view of the re-run
key-0 unit, whose data the run start preserves). -/
theorem latest_data_spec (c : LoadMoreOptions) (now : Int)
    (st : LoadMoreState) (ps : List JVal) (q q0 : State) :
    (∀ v, v.isUndefined = false →
      assocGet st.reg.queries st.reg.latestQueriesKey = some q →
      (settleSuccessLM c now st.reg.latestQueriesKey v st).latestData = v) ∧
    (assocGet st.reg.queries st.reg.latestQueriesKey = some q →
      (settleSuccessLM c now st.reg.latestQueriesKey JVal.undefined st).latestData =
        st.latestData) ∧
    (st.reg.view.params = some ps →
      ∃ st2, reloadStart c st = some (st2, JVal.undefined :: ps.drop 1) ∧
        st2.latestData = JVal.undefined) ∧
    (assocGet st.reg.queries
        (toString (if st.increaseQueryKey = 0 then initailIncreaseQueryKey
          else st.increaseQueryKey - 1)) = some q →
      st.reg.view.params = some ps →
      assocGet st.reg.queries (toString initailIncreaseQueryKey) = some q0 →
      q0.data.isUndefined = false →
      (st.reg.ready = true ∨ st.reg.hasTriggerReady = true) →
      ∃ st2, refreshStart c st = some (st2, JVal.undefined :: ps.drop 1) ∧
        st2.latestData = q0.data) := by
  refine ⟨?_, ?_, ?_, ?_⟩
  · intro v hv hk
    simp [settleSuccessLM, hk, LoadMoreState.sync, Registry.flush,
      assocGet_assocSet_self, State.resolveSuccess, syncView, hv]
  · intro hk
    simp [settleSuccessLM, hk, LoadMoreState.sync, Registry.flush,
      assocGet_assocSet_self, State.resolveSuccess, syncView, JVal.isUndefined]
  · intro hp
    refine ⟨LoadMoreState.sync
      { st with
          reloading := true
          increaseQueryKey := initailIncreaseQueryKey
          latestData := JVal.undefined
          reg := (Registry.run (lmOptions c initailIncreaseQueryKey)
            (resetRegistry st.reg).1 (JVal.undefined :: ps.drop 1)).1 }, ?_, ?_⟩
    · simp [reloadStart, hp, resetRegistry]
    · cases hr : st.reg.ready with
      | true =>
        simp [LoadMoreState.sync, Registry.flush, Registry.run, hr,
          resetRegistry, lmOptions, subKeyOf, assocGet_assocSet_self,
          createQuery, State.runStart, syncView, JVal.isUndefined, initailKey_eq,
          assocGet, QUERY_DEFAULT_KEY]
      | false =>
        cases hh : st.reg.hasTriggerReady with
        | true =>
          simp [LoadMoreState.sync, Registry.flush, Registry.run, hr, hh,
            resetRegistry, lmOptions, subKeyOf, assocGet_assocSet_self,
            createQuery, State.runStart, syncView, JVal.isUndefined, initailKey_eq,
            assocGet, QUERY_DEFAULT_KEY]
        | false =>
          simp [LoadMoreState.sync, Registry.flush, Registry.run, hr, hh,
            resetRegistry, syncView, assocGet, QUERY_DEFAULT_KEY, createQuery,
            JVal.isUndefined]
  · intro hq hp h0 hd hready
    have hg : (!st.reg.ready && !st.reg.hasTriggerReady) = false := by
      rcases hready with h | h <;> simp [h]
    refine ⟨LoadMoreState.sync
      { st with
          refreshing := true
          increaseQueryKey := initailIncreaseQueryKey
          latestData := q.data
          reg := (Registry.run (lmOptions c initailIncreaseQueryKey) st.reg
            (JVal.undefined :: ps.drop 1)).1 }, ?_, ?_⟩
    · simp [refreshStart, hq, hp]
    · simp [LoadMoreState.sync, Registry.flush, Registry.run, hg, lmOptions,
        subKeyOf, h0, assocGet_assocSet_self, State.runStart, syncView, hd]

/-- Witness for latest_data_spec on the one-page state: a defined second
page replaces the exposed data, an undefined one leaves it at page 1,
reload clears it, and refresh leaves it at the key-0 unit's cached page-1
data. -/
theorem latest_data_spec_witness :
    (settleSuccessLM optsPlain 0 stPlain.reg.latestQueriesKey pageB
        stPlain).latestData = pageB ∧
    (settleSuccessLM optsPlain 0 stPlain.reg.latestQueriesKey JVal.undefined
        stPlain).latestData = stPlain.latestData ∧
    (∃ st2, reloadStart optsPlain stPlain = some (st2, [JVal.undefined]) ∧
      st2.latestData = JVal.undefined) ∧
    (∃ st2, refreshStart optsPlain stPlain = some (st2, [JVal.undefined]) ∧
      st2.latestData = pageA) := by
  have h := latest_data_spec optsPlain 0 stPlain []
    { loading := false, data := pageA, error := JVal.undefined, params := some [] }
    { loading := false, data := pageA, error := JVal.undefined, params := some [] }
  exact ⟨h.1 pageB rfl rfl, h.2.1 rfl, h.2.2.1 rfl,
    h.2.2.2 rfl rfl rfl rfl (Or.inl rfl)⟩

end VR
